import Mathlib

set_option maxRecDepth 8000

/-
Verification development for the Mazda OAuth helper background service worker
(custom_components/mazda_cs/chrome-extension/background.js).

JS strings are modelled as lists of characters.  Fallible platform calls
(atob, JSON.parse, new URL) are modelled as Option-returning functions; an
exception that escapes the event handler is an Except.error value.
-/

/-- Boolean prefix test on character lists, the embedding of
String.prototype.startsWith for a fixed pattern. -/
def startsWithL : List Char → List Char → Bool
  | [], _ => true
  | _ :: _, [] => false
  | p :: ps, c :: cs => p == c && startsWithL ps cs

/-- Embedding of JS String.prototype.split with a single-character separator:
splitting the empty string gives one empty segment, and separators at the ends
produce empty segments. -/
def jsSplit (sep : Char) : List Char → List (List Char)
  | [] => [[]]
  | c :: cs =>
    match jsSplit sep cs with
    | [] => [[c]]
    | p :: ps => if c = sep then [] :: p :: ps else (c :: p) :: ps

/-- Inverse of jsSplit: join segments with the separator. -/
def joinSep (sep : Char) : List (List Char) → List Char
  | [] => []
  | [p] => p
  | p :: q :: ps => p ++ sep :: joinSep sep (q :: ps)

/-- ASCII whitespace as stripped by the forgiving-base64 decoder behind atob. -/
def asciiWS (c : Char) : Bool :=
  c.toNat == 9 || c.toNat == 10 || c.toNat == 12 || c.toNat == 13 || c.toNat == 32

/-- Value of a character in the standard base64 alphabet used by atob. -/
def b64Val (c : Char) : Option Nat :=
  if 65 ≤ c.toNat ∧ c.toNat ≤ 90 then some (c.toNat - 65)
  else if 97 ≤ c.toNat ∧ c.toNat ≤ 122 then some (c.toNat - 71)
  else if 48 ≤ c.toNat ∧ c.toNat ≤ 57 then some (c.toNat + 4)
  else if c == '+' then some 62
  else if c == '/' then some 63
  else none

/-- Value of a character in the base64url alphabet (RFC 4648 section 5). -/
def b64urlVal (c : Char) : Option Nat :=
  if 65 ≤ c.toNat ∧ c.toNat ≤ 90 then some (c.toNat - 65)
  else if 97 ≤ c.toNat ∧ c.toNat ≤ 122 then some (c.toNat - 71)
  else if 48 ≤ c.toNat ∧ c.toNat ≤ 57 then some (c.toNat + 4)
  else if c == '-' then some 62
  else if c == '_' then some 63
  else none

/-- Map every character to its sextet value, failing on a character outside
the alphabet. -/
def b64Sextets (f : Char → Option Nat) : List Char → Option (List Nat)
  | [] => some []
  | c :: cs =>
    match f c, b64Sextets f cs with
    | some v, some vs => some (v :: vs)
    | _, _ => none

/-- Reassemble bytes from sextets; a trailing chunk of two or three sextets
yields one or two bytes, extra bits are discarded (forgiving decode). -/
def b64Bytes : List Nat → List Nat
  | a :: b :: c :: d :: rest =>
    (a * 4 + b / 16) :: ((b % 16) * 16 + c / 4) :: ((c % 4) * 64 + d) :: b64Bytes rest
  | [a, b] => [a * 4 + b / 16]
  | [a, b, c] => [a * 4 + b / 16, (b % 16) * 16 + c / 4]
  | _ => []

/-- Strip up to two trailing padding characters when the length is a multiple
of four, as the forgiving-base64 decoder does. -/
def stripTrailEq (cs : List Char) : List Char :=
  if cs.length % 4 = 0 then
    match cs.reverse with
    | '=' :: '=' :: r => r.reverse
    | '=' :: r => r.reverse
    | _ => cs
  else cs

/-- Embedding of the atob platform function: forgiving-base64 decode of a JS
string, producing a binary string (one character per byte); none models the
InvalidCharacterError exception. -/
def atob (input : List Char) : Option (List Char) :=
  if input.any (fun c => 255 < c.toNat) then none
  else
    let d := input.filter (fun c => !asciiWS c)
    let d2 := stripTrailEq d
    if d2.length % 4 = 1 then none
    else
      match b64Sextets b64Val d2 with
      | none => none
      | some sx => some ((b64Bytes sx).map Char.ofNat)

/-- Base64url decoding as the specification words it (alphabet with minus and
underscore, optional trailing padding).  This is the claim-side definition,
kept for comparison with the atob-based implementation. -/
def specBase64urlDecode (input : List Char) : Option (List Char) :=
  let d := stripTrailEq input
  if d.length % 4 = 1 then none
  else
    match b64Sextets b64urlVal d with
    | none => none
    | some sx => some ((b64Bytes sx).map Char.ofNat)

/-- JSON values as produced by JSON.parse.  Numbers keep their source lexeme:
no claim depends on numeric magnitude, only on the type of a field. -/
inductive Json where
  | jnull : Json
  | jbool : Bool → Json
  | jnum : List Char → Json
  | jstr : List Char → Json
  | jarr : List Json → Json
  | jobj : List (List Char × Json) → Json

/-- Whitespace accepted between JSON tokens. -/
def jsonWSChar (c : Char) : Bool :=
  c.toNat == 32 || c.toNat == 9 || c.toNat == 10 || c.toNat == 13

/-- Drop leading JSON whitespace. -/
def skipWS : List Char → List Char
  | [] => []
  | c :: cs => if jsonWSChar c then skipWS cs else c :: cs

/-- Hexadecimal digit value, both cases accepted. -/
def hexVal (c : Char) : Option Nat :=
  if 48 ≤ c.toNat ∧ c.toNat ≤ 57 then some (c.toNat - 48)
  else if 65 ≤ c.toNat ∧ c.toNat ≤ 70 then some (c.toNat - 55)
  else if 97 ≤ c.toNat ∧ c.toNat ≤ 102 then some (c.toNat - 87)
  else none

/-- Four hex digits to a code unit value. -/
def hex4 (a b c d : Char) : Option Nat :=
  match hexVal a, hexVal b, hexVal c, hexVal d with
  | some x, some y, some z, some w => some (((x * 16 + y) * 16 + z) * 16 + w)
  | _, _, _, _ => none

/-- Single-character JSON string escapes. -/
def jEsc (c : Char) : Option Char :=
  match c with
  | '"' => some '"'
  | '\x5c' => some '\x5c'
  | '/' => some '/'
  | 'n' => some (Char.ofNat 10)
  | 't' => some (Char.ofNat 9)
  | 'r' => some (Char.ofNat 13)
  | 'b' => some (Char.ofNat 8)
  | 'f' => some (Char.ofNat 12)
  | _ => none

/-- Parse the body of a JSON string after the opening quote, returning the
decoded content and the remaining input after the closing quote.  Surrogate
escape pairs are combined; a lone surrogate escape is mapped to U+FFFD since
the embedding's characters are Unicode scalar values.  The fuel argument only
keeps the recursion structural; one unit is spent per produced character. -/
def parseJStrBody : Nat → List Char → Option (List Char × List Char)
  | 0, _ => none
  | Nat.succ fuel, cs =>
    match cs with
    | [] => none
    | c :: rest =>
      if c == '"' then some ([], rest)
      else if c == '\\' then
        match rest with
        | 'u' :: a :: b :: c2 :: d :: rest3 =>
          match hex4 a b c2 d with
          | none => none
          | some n =>
            if 0xD800 ≤ n ∧ n ≤ 0xDBFF then
              match rest3 with
              | '\\' :: 'u' :: a2 :: b2 :: c3 :: d2 :: rest4 =>
                match hex4 a2 b2 c3 d2 with
                | some m =>
                  if 0xDC00 ≤ m ∧ m ≤ 0xDFFF then
                    match parseJStrBody fuel rest4 with
                    | some (s, r) =>
                      some (Char.ofNat (0x10000 + (n - 0xD800) * 1024 + (m - 0xDC00)) :: s, r)
                    | none => none
                  else
                    match parseJStrBody fuel ('\\' :: 'u' :: a2 :: b2 :: c3 :: d2 :: rest4) with
                    | some (s, r) => some ('�' :: s, r)
                    | none => none
                | none => none
              | _ =>
                match parseJStrBody fuel rest3 with
                | some (s, r) => some ('�' :: s, r)
                | none => none
            else if 0xDC00 ≤ n ∧ n ≤ 0xDFFF then
              match parseJStrBody fuel rest3 with
              | some (s, r) => some ('�' :: s, r)
              | none => none
            else
              match parseJStrBody fuel rest3 with
              | some (s, r) => some (Char.ofNat n :: s, r)
              | none => none
        | e :: rest2 =>
          match jEsc e with
          | some ch =>
            match parseJStrBody fuel rest2 with
            | some (s, r) => some (ch :: s, r)
            | none => none
          | none => none
        | [] => none
      else if c.toNat < 32 then none
      else
        match parseJStrBody fuel rest with
        | some (s, r) => some (c :: s, r)
        | none => none

/-- Take a maximal run of decimal digits. -/
def takeDigits : List Char → (List Char × List Char)
  | [] => ([], [])
  | c :: cs =>
    if c.isDigit then
      match takeDigits cs with
      | (d, r) => (c :: d, r)
    else ([], c :: cs)

/-- Integer part of a JSON number: a single zero or a nonzero digit followed
by digits. -/
def parseJNumCore (cs1 : List Char) : Option (List Char × List Char) :=
  match cs1 with
  | [] => none
  | c :: r1 =>
    if c == '0' then some (['0'], r1)
    else if c.isDigit then
      match takeDigits r1 with
      | (d, r2) => some (c :: d, r2)
    else none

/-- Optional fraction part of a JSON number. -/
def parseJFrac (cs : List Char) : Option (List Char × List Char) :=
  match cs with
  | '.' :: r =>
    match takeDigits r with
    | ([], _) => none
    | (d, r2) => some ('.' :: d, r2)
  | _ => some ([], cs)

/-- Optional exponent part of a JSON number. -/
def parseJExp (cs : List Char) : Option (List Char × List Char) :=
  match cs with
  | e :: r =>
    if e == 'e' || e == 'E' then
      match r with
      | '+' :: rr =>
        match takeDigits rr with
        | ([], _) => none
        | (d, r2) => some (e :: '+' :: d, r2)
      | '-' :: rr =>
        match takeDigits rr with
        | ([], _) => none
        | (d, r2) => some (e :: '-' :: d, r2)
      | _ =>
        match takeDigits r with
        | ([], _) => none
        | (d, r2) => some (e :: d, r2)
    else some ([], cs)
  | [] => some ([], [])

/-- Full JSON number lexeme. -/
def parseJNum (cs : List Char) : Option (List Char × List Char) :=
  match cs with
  | '-' :: r =>
    match parseJNumCore r with
    | none => none
    | some (ip, cs2) =>
      match parseJFrac cs2 with
      | none => none
      | some (fp, cs3) =>
        match parseJExp cs3 with
        | none => none
        | some (ep, cs4) => some ('-' :: (ip ++ fp ++ ep), cs4)
  | _ =>
    match parseJNumCore cs with
    | none => none
    | some (ip, cs2) =>
      match parseJFrac cs2 with
      | none => none
      | some (fp, cs3) =>
        match parseJExp cs3 with
        | none => none
        | some (ep, cs4) => some (ip ++ fp ++ ep, cs4)

/-- Parsing modes of the JSON recursive-descent grammar: a value, the members
of an object after its opening brace, or the items of an array after its
opening bracket. -/
inductive JMode where
  | value : JMode
  | objRest : JMode
  | arrRest : JMode

/-- Results corresponding to the three modes. -/
inductive JRes where
  | rval : Json → JRes
  | rfields : List (List Char × Json) → JRes
  | ritems : List Json → JRes

/-- Fuel-indexed JSON recursive descent; fuel only bounds nesting so that the
recursion is structural and reduces inside the kernel. -/
def parseJ : Nat → JMode → List Char → Option (JRes × List Char)
  | 0, _, _ => none
  | Nat.succ fuel, JMode.value, cs =>
    match skipWS cs with
    | [] => none
    | c :: rest =>
      if c == '\x7b' then
        match skipWS rest with
        | c2 :: rest2 =>
          if c2 == '\x7d' then some (JRes.rval (Json.jobj []), rest2)
          else
            match parseJ fuel JMode.objRest rest with
            | some (JRes.rfields fs, r) => some (JRes.rval (Json.jobj fs), r)
            | _ => none
        | [] => none
      else if c == '[' then
        match skipWS rest with
        | c2 :: rest2 =>
          if c2 == ']' then some (JRes.rval (Json.jarr []), rest2)
          else
            match parseJ fuel JMode.arrRest rest with
            | some (JRes.ritems xs, r) => some (JRes.rval (Json.jarr xs), r)
            | _ => none
        | [] => none
      else if c == '"' then
        match parseJStrBody (rest.length + 1) rest with
        | some (s, r) => some (JRes.rval (Json.jstr s), r)
        | none => none
      else
        match c :: rest with
        | 't' :: 'r' :: 'u' :: 'e' :: r => some (JRes.rval (Json.jbool true), r)
        | 'f' :: 'a' :: 'l' :: 's' :: 'e' :: r => some (JRes.rval (Json.jbool false), r)
        | 'n' :: 'u' :: 'l' :: 'l' :: r => some (JRes.rval Json.jnull, r)
        | other =>
          match parseJNum other with
          | some (lex, r) => some (JRes.rval (Json.jnum lex), r)
          | none => none
  | Nat.succ fuel, JMode.objRest, cs =>
    match skipWS cs with
    | '"' :: rest =>
      match parseJStrBody (rest.length + 1) rest with
      | none => none
      | some (key, r1) =>
        match skipWS r1 with
        | ':' :: r2 =>
          match parseJ fuel JMode.value r2 with
          | some (JRes.rval v, r3) =>
            match skipWS r3 with
            | ',' :: r4 =>
              match parseJ fuel JMode.objRest r4 with
              | some (JRes.rfields fs, r5) => some (JRes.rfields ((key, v) :: fs), r5)
              | _ => none
            | c5 :: r5 =>
              if c5 == '\x7d' then some (JRes.rfields [(key, v)], r5) else none
            | [] => none
          | _ => none
        | _ => none
    | _ => none
  | Nat.succ fuel, JMode.arrRest, cs =>
    match parseJ fuel JMode.value cs with
    | some (JRes.rval v, r1) =>
      match skipWS r1 with
      | ',' :: r2 =>
        match parseJ fuel JMode.arrRest r2 with
        | some (JRes.ritems xs, r3) => some (JRes.ritems (v :: xs), r3)
        | _ => none
      | ']' :: r2 => some (JRes.ritems [v], r2)
      | _ => none
    | _ => none

/-- Embedding of JSON.parse; none models the SyntaxError exception. -/
def jsonParse (cs : List Char) : Option Json :=
  match parseJ (2 * cs.length + 16) JMode.value cs with
  | some (JRes.rval v, rest) => if skipWS rest = [] then some v else none
  | _ => none

/-- Property lookup on a parsed object: a later duplicate key overwrites an
earlier one, as property assignment does during JSON.parse. -/
def lookupLast (fs : List (List Char × Json)) (k : List Char) : Option Json :=
  match fs with
  | [] => none
  | (k0, v) :: rest =>
    match lookupLast rest k with
    | some r => some r
    | none => if k0 = k then some v else none

/-- Truthiness of a JSON number lexeme: zero iff every mantissa digit is 0.
Float underflow of a tiny nonzero literal is not modelled; the difference is
unobservable in isHomeAssistantFlow, where a numeric payload yields false on
both sides of the conjunction. -/
def jnumTruthy (lex : List Char) : Bool :=
  ((lex.takeWhile (fun c => !(c == 'e' || c == 'E'))).filter Char.isDigit).any
    (fun c => !(c == '0'))

/-- JS truthiness of a JSON.parse result. -/
def jsTruthyJson : Json → Bool
  | Json.jnull => false
  | Json.jbool b => b
  | Json.jnum lex => jnumTruthy lex
  | Json.jstr s => !s.isEmpty
  | Json.jarr _ => true
  | Json.jobj _ => true

/-- The test typeof payload.k === "string": property access on a non-object
yields undefined, whose typeof is not "string". -/
def jsonFieldIsString (v : Json) (k : List Char) : Bool :=
  match v with
  | Json.jobj fs =>
    match lookupLast fs k with
    | some (Json.jstr _) => true
    | _ => false
  | _ => false

/-- The flow_id property name. -/
def flowIdKey : List Char := "flow_id".data

/-- Embedding of isHomeAssistantFlow from background.js: a null or empty state
is rejected; the state is split on periods into exactly three parts; the
middle part is decoded with atob and parsed as JSON; the result must be a
truthy value with a string flow_id property.  Exceptions from atob or
JSON.parse are caught and yield false. -/
def isHomeAssistantFlow : Option (List Char) → Bool
  | none => false
  | some s =>
    if s.isEmpty then false
    else
      let parts := jsSplit '.' s
      if parts.length ≠ 3 then false
      else
        match atob (parts.getD 1 []) with
        | none => false
        | some bin =>
          match jsonParse bin with
          | none => false
          | some payload => jsTruthyJson payload && jsonFieldIsString payload flowIdKey

/-- Modelled from the spec claim wording of C1: classification succeeds when
the state has exactly three period-separated segments and the middle segment
base64url-decodes to JSON whose flow_id field is a string. -/
def specIsHAFlowB64url : Option (List Char) → Bool
  | none => false
  | some s =>
    if s.isEmpty then false
    else
      match jsSplit '.' s with
      | [_, b, _] =>
        match specBase64urlDecode b with
        | none => false
        | some bin =>
          match jsonParse bin with
          | none => false
          | some v => jsonFieldIsString v flowIdKey
      | _ => false

example : isHomeAssistantFlow (some ("x.eyJmbG93X2lkIjoiYSJ9.y".data)) = true := by decide
example : isHomeAssistantFlow (some ("x.eyJmbG93X2lkIjoiYWI_In0.y".data)) = false := by decide
example : specIsHAFlowB64url (some ("x.eyJmbG93X2lkIjoiYWI_In0.y".data)) = true := by decide
example : isHomeAssistantFlow (some ("x.y".data)) = false := by decide
example : isHomeAssistantFlow (some [] ) = false := by decide
example : jsonParse ("\x7b\"flow_id\":\"a\"\x7d".data) =
    some (Json.jobj [(flowIdKey, Json.jstr ['a'])]) := by rfl

/-- Split at the first occurrence of a character; none when absent. -/
def splitFirst (sep : Char) : List Char → Option (List Char × List Char)
  | [] => none
  | c :: rest =>
    if c = sep then some ([], rest)
    else
      match splitFirst sep rest with
      | some (a, b) => some (c :: a, b)
      | none => none

/-- Split off the longest run of characters failing a predicate; the second
component starts at the first character satisfying it. -/
def takeUntilP (p : Char → Bool) : List Char → (List Char × List Char)
  | [] => ([], [])
  | c :: rest =>
    if p c then ([], c :: rest)
    else
      match takeUntilP p rest with
      | (a, b) => (c :: a, b)

/-- Split at the last occurrence of a character; none when absent. -/
def splitLast (sep : Char) (cs : List Char) : Option (List Char × List Char) :=
  match splitFirst sep cs.reverse with
  | some (a, b) => some (b.reverse, a.reverse)
  | none => none

/-- C0 control or space, trimmed from both ends of a URL before parsing. -/
def c0OrSpace (c : Char) : Bool := c.toNat ≤ 32

/-- Input preprocessing of the WHATWG URL parser: trim C0 controls and spaces
at both ends, then remove every tab and newline. -/
def urlPreprocess (cs : List Char) : List Char :=
  (((cs.dropWhile c0OrSpace).reverse.dropWhile c0OrSpace).reverse).filter
    (fun c => !(c == '\t' || c == '\n' || c == '\r'))

/-- Characters allowed after the first character of a URL scheme. -/
def schemeRestChar (c : Char) : Bool :=
  c.isAlphanum || c == '+' || c == '-' || c == '.'

/-- A valid URL scheme: a letter followed by letters, digits, plus, minus or
period. -/
def validScheme : List Char → Bool
  | [] => false
  | c :: rest => c.isAlpha && rest.all schemeRestChar

/-- Forbidden host code points of the WHATWG URL standard; an opaque host
containing one makes new URL throw. -/
def forbiddenHostChar (c : Char) : Bool :=
  c.toNat = 0 || c == '\t' || c == '\n' || c == '\r' || c == ' ' || c == '#' ||
    c == '/' || c == '<' || c == '>' || c == '?' || c == '@' || c == '[' ||
    c == '\\' || c == ']' || c == '^' || c == '|'

/-- UTF-8 encoding of a Unicode scalar value. -/
def utf8Encode (n : Nat) : List Nat :=
  if n < 0x80 then [n]
  else if n < 0x800 then [0xC0 + n / 64, 0x80 + n % 64]
  else if n < 0x10000 then [0xE0 + n / 4096, 0x80 + n / 64 % 64, 0x80 + n % 64]
  else [0xF0 + n / 262144, 0x80 + n / 4096 % 64, 0x80 + n / 64 % 64, 0x80 + n % 64]

/-- UTF-8 decoding with U+FFFD replacement on malformed input, fuel-indexed so
that the recursion is structural; one unit is spent per input byte. -/
def utf8DecodeGo : Nat → List Nat → List Char
  | 0, _ => []
  | Nat.succ fuel, bs =>
    match bs with
    | [] => []
    | b :: rest =>
      if b < 0x80 then Char.ofNat b :: utf8DecodeGo fuel rest
      else if 0xC2 ≤ b ∧ b ≤ 0xDF then
        match rest with
        | b2 :: rest2 =>
          if b2 / 64 = 2 then
            Char.ofNat ((b - 0xC0) * 64 + (b2 - 0x80)) :: utf8DecodeGo fuel rest2
          else '�' :: utf8DecodeGo fuel rest
        | [] => ['�']
      else if 0xE0 ≤ b ∧ b ≤ 0xEF then
        match rest with
        | b2 :: rest2 =>
          if (if b = 0xE0 then 0xA0 ≤ b2 ∧ b2 ≤ 0xBF
              else if b = 0xED then 0x80 ≤ b2 ∧ b2 ≤ 0x9F
              else b2 / 64 = 2) then
            match rest2 with
            | b3 :: rest3 =>
              if b3 / 64 = 2 then
                Char.ofNat ((b - 0xE0) * 4096 + (b2 - 0x80) * 64 + (b3 - 0x80)) ::
                  utf8DecodeGo fuel rest3
              else '�' :: utf8DecodeGo fuel rest2
            | [] => ['�']
          else '�' :: utf8DecodeGo fuel rest
        | [] => ['�']
      else if 0xF0 ≤ b ∧ b ≤ 0xF4 then
        match rest with
        | b2 :: rest2 =>
          if (if b = 0xF0 then 0x90 ≤ b2 ∧ b2 ≤ 0xBF
              else if b = 0xF4 then 0x80 ≤ b2 ∧ b2 ≤ 0x8F
              else b2 / 64 = 2) then
            match rest2 with
            | b3 :: rest3 =>
              if b3 / 64 = 2 then
                match rest3 with
                | b4 :: rest4 =>
                  if b4 / 64 = 2 then
                    Char.ofNat
                        ((b - 0xF0) * 262144 + (b2 - 0x80) * 4096 + (b3 - 0x80) * 64 +
                          (b4 - 0x80)) ::
                      utf8DecodeGo fuel rest4
                  else '�' :: utf8DecodeGo fuel rest3
                | [] => ['�']
            else '�' :: utf8DecodeGo fuel rest2
            | [] => ['�']
          else '�' :: utf8DecodeGo fuel rest
        | [] => ['�']
      else '�' :: utf8DecodeGo fuel rest

/-- UTF-8 decode a byte sequence. -/
def utf8DecodeBytes (bs : List Nat) : List Char :=
  utf8DecodeGo (bs.length + 1) bs

/-- Percent-decode a string to bytes: a valid percent escape becomes one byte,
anything else contributes its UTF-8 bytes.  Fuel keeps the recursion
structural; one unit is spent per consumed character. -/
def percentDecodeGo : Nat → List Char → List Nat
  | 0, _ => []
  | Nat.succ fuel, cs =>
    match cs with
    | [] => []
    | '%' :: a :: b :: rest =>
      match hexVal a, hexVal b with
      | some x, some y => (16 * x + y) :: percentDecodeGo fuel rest
      | _, _ => 37 :: percentDecodeGo fuel (a :: b :: rest)
    | c :: rest =>
      (if c == '%' then [37] else utf8Encode c.toNat) ++ percentDecodeGo fuel rest

/-- Percent-decode a string to bytes. -/
def percentDecodeStr (cs : List Char) : List Nat :=
  percentDecodeGo (cs.length + 1) cs

/-- Uppercase hexadecimal digit. -/
def hexUpper (n : Nat) : Char :=
  if n < 10 then Char.ofNat (48 + n) else Char.ofNat (55 + n)

/-- Percent-encode one byte. -/
def percentEncodeByte (b : Nat) : List Char :=
  ['%', hexUpper (b / 16), hexUpper (b % 16)]

/-- Concatenation of the images of a list-valued function. -/
def flatMapL {α β : Type} (f : α → List β) : List α → List β
  | [] => []
  | a :: as => f a ++ flatMapL f as

/-- The query percent-encode set: C0 controls, space, double quote, number
sign, less-than, greater-than, and everything above tilde. -/
def queryPES (b : Nat) : Bool :=
  if b < 0x20 then true
  else if b = 0x20 then true
  else if b = 0x22 then true
  else if b = 0x23 then true
  else if b = 0x3C then true
  else if b = 0x3E then true
  else if 0x7E < b then true
  else false

/-- Encoding applied by the URL parser's query state to one character. -/
def queryEncodeChar (c : Char) : List Char :=
  if queryPES c.toNat then flatMapL percentEncodeByte (utf8Encode c.toNat) else [c]

/-- Encoding applied by the URL parser's query state. -/
def queryEncode (q : List Char) : List Char :=
  flatMapL queryEncodeChar q

/-- Digits of a port to its numeric value. -/
def portNum (ds : List Char) : Nat :=
  ds.foldl (fun a c => a * 10 + (c.toNat - 48)) 0

/-- Validity of the host-and-port part of a non-special authority: the opaque
host must avoid forbidden host code points, and a port must be numeric and at
most 65535.  IPv6 bracket hosts are not modelled: under the recognized Mazda
scheme the host always begins with the characters of auth, so a bracket host
cannot reach this function from the event handlers. -/
def hostPortOk (hostport : List Char) : Bool :=
  match takeUntilP (fun c => c == ':') hostport with
  | (host, portpart) =>
    if host.any forbiddenHostChar then false
    else if host.isEmpty && !portpart.isEmpty then false
    else
      match portpart with
      | [] => true
      | _ :: ds => ds.all Char.isDigit && (ds.isEmpty || portNum ds ≤ 65535)

/-- The query of a URL suffix after scheme and authority: characters after the
first question mark and before the first number sign, passed through the query
percent-encoding. -/
def extractQuery (cs : List Char) : List Char :=
  match takeUntilP (fun c => c == '#') cs with
  | (pre, _) =>
    match splitFirst '?' pre with
    | some (_, q) => queryEncode q
    | none => []

/-- Embedding of new URL for an absolute URL string, returning the stored
query (empty when the URL has none); none models the TypeError thrown on a
parse failure.  Covers the features reachable from the handlers: non-special
schemes with an opaque host, userinfo split at the last at-sign, ports, path,
query and fragment. -/
def parseURLQuery (url : List Char) : Option (List Char) :=
  let u := urlPreprocess url
  match splitFirst ':' u with
  | none => none
  | some (sch, rest) =>
    if validScheme sch then
      match rest with
      | '/' :: '/' :: rest2 =>
        match takeUntilP (fun c => c == '/' || c == '?' || c == '#') rest2 with
        | (auth, rest3) =>
          match splitLast '@' auth with
          | some (_, hp) =>
            if hp.isEmpty then none
            else if hostPortOk hp then some (extractQuery rest3) else none
          | none =>
            if hostPortOk auth then some (extractQuery rest3) else none
      | _ => some (extractQuery rest)
    else none

/-- Form-urlencoded decoding of one token: plus becomes space, then
percent-decode and UTF-8 decode. -/
def formDecodeStr (cs : List Char) : List Char :=
  utf8DecodeBytes (percentDecodeStr (cs.map (fun c => if c == '+' then ' ' else c)))

/-- Split a parameter token at the first equals sign; a token without one is
a name with an empty value. -/
def splitFirstEq (cs : List Char) : (List Char × List Char) :=
  match splitFirst '=' cs with
  | some (a, b) => (a, b)
  | none => (cs, [])

/-- The application/x-www-form-urlencoded parser behind searchParams: split on
ampersands, skip empty tokens, split each token at its first equals sign and
decode names and values. -/
def urlencodedParse (q : List Char) : List (List Char × List Char) :=
  flatMapL
    (fun piece =>
      if piece.isEmpty then []
      else
        match splitFirstEq piece with
        | (n, v) => [(formDecodeStr n, formDecodeStr v)])
    (jsSplit '&' q)

/-- searchParams.get: the value of the first parameter with the given name. -/
def searchGet (prms : List (List Char × List Char)) (k : List Char) : Option (List Char) :=
  match prms with
  | [] => none
  | (n, v) :: rest => if n = k then some v else searchGet rest k

/-- Bytes serialized verbatim by the form-urlencoded serializer: asterisk,
minus, period, underscore, digits and letters. -/
def formSafeByte (b : Nat) : Bool :=
  if b = 0x2A then true
  else if b = 0x2D then true
  else if b = 0x2E then true
  else if 0x30 ≤ b ∧ b ≤ 0x39 then true
  else if 0x41 ≤ b ∧ b ≤ 0x5A then true
  else if b = 0x5F then true
  else if 0x61 ≤ b ∧ b ≤ 0x7A then true
  else false

/-- Form-urlencoded serialization of one byte: space becomes plus, safe bytes
stay, everything else is percent-encoded. -/
def formEncodeByte (b : Nat) : List Char :=
  if b = 0x20 then ['+']
  else if formSafeByte b then [Char.ofNat b]
  else percentEncodeByte b

/-- Form-urlencoded serialization of a string. -/
def formEncode (cs : List Char) : List Char :=
  flatMapL (fun c => flatMapL formEncodeByte (utf8Encode c.toNat)) cs

/-- Serialization of a parameter list, as URL.toString renders searchParams. -/
def formSerialize : List (List Char × List Char) → List Char
  | [] => []
  | [(n, v)] => formEncode n ++ '=' :: formEncode v
  | (n, v) :: p :: ps => formEncode n ++ '=' :: formEncode v ++ '&' :: formSerialize (p :: ps)

/-- The redirect-URI prefix tested by both listeners in background.js. -/
def mazdaAuthURLStart : List Char := "msauth.com.mazdausa.mazdaiphone://auth".data

/-- The Android custom-scheme prefix named by the specification; it appears in
no comparison performed by background.js. -/
def androidSchemeStart : List Char := "msauth://com.interrait.mymazda".data

/-- Query parameter names used by the handlers. -/
def codeKey : List Char := "code".data

/-- The state parameter name. -/
def stateKey : List Char := "state".data

/-- The error parameter name. -/
def errorKey : List Char := "error".data

/-- The error_description parameter name. -/
def errorDescKey : List Char := "error_description".data

/-- Badge text set on a successful capture. -/
def badgeCheckText : List Char := "✓".data

/-- Badge background color set on a successful capture. -/
def badgeGreenColor : List Char := "#4CAF50".data

/-- The fixed Home Assistant OAuth completion endpoint. -/
def haBase : List Char := "https://my.home-assistant.io/redirect/oauth".data

/-- Serialization of new URL(haBase) after setting code and state: the WHATWG
serialization of the base is the base string itself, followed by the
serialized search parameters. -/
def haRedirectURL (c s : List Char) : List Char :=
  haBase ++ '?' :: formSerialize [(codeKey, c), (stateKey, s)]

/-- chrome.runtime.getURL("capture.html") for an extension with the given
identifier. -/
def captureBase (extId : List Char) : List Char :=
  "chrome-extension://".data ++ extId ++ "/capture.html".data

/-- The capture page URL with the given search parameters set in order. -/
def captureURL (extId : List Char) (prms : List (List Char × List Char)) : List Char :=
  captureBase extId ++ '?' :: formSerialize prms

/-- JS truthiness of a nullable string: null and the empty string are falsy. -/
def jsTruthy : Option (List Char) → Bool
  | some (_ :: _) => true
  | _ => false

/-- The observable outcome of one handler invocation that did not throw: the
URL the originating tab is navigated to, if any, and the badge text and color
writes, if any. -/
structure Dispatch where
  navURL : Option (List Char)
  badgeText : Option (List Char)
  badgeColor : Option (List Char)
deriving DecidableEq, Repr

/-- Embedding of the chrome.webNavigation.onBeforeNavigate listener of
background.js: on a URL starting with the Mazda redirect prefix, parse it
(an unparsable URL makes new URL throw, modelled as Except.error, and nothing
is dispatched), read code and state, and either redirect to the Home
Assistant endpoint (truthy code and positive classification) or show the
capture page with code, state, error and error_description, setting the badge
when the code is truthy.  Any other URL is ignored. -/
def onBeforeNavigate (extId url : List Char) : Except Unit Dispatch :=
  if startsWithL mazdaAuthURLStart url then
    match parseURLQuery url with
    | none => Except.error ()
    | some q =>
      let prms := urlencodedParse q
      let code := searchGet prms codeKey
      let state := searchGet prms stateKey
      if jsTruthy code && isHomeAssistantFlow state then
        Except.ok ⟨some (haRedirectURL (code.getD []) (state.getD [])), none, none⟩
      else
        let cap := captureURL extId
          [(codeKey, code.getD []), (stateKey, state.getD []),
            (errorKey, (searchGet prms errorKey).getD []),
            (errorDescKey, (searchGet prms errorDescKey).getD [])]
        if jsTruthy code then
          Except.ok ⟨some cap, some badgeCheckText, some badgeGreenColor⟩
        else
          Except.ok ⟨some cap, none, none⟩
  else Except.ok ⟨none, none, none⟩

/-- Embedding of the chrome.webNavigation.onErrorOccurred listener of
background.js: same recognition, classification and external redirect as the
navigation-attempt listener, but the capture page receives only the code
parameter. -/
def onErrorOccurred (extId url : List Char) : Except Unit Dispatch :=
  if !url.isEmpty && startsWithL mazdaAuthURLStart url then
    match parseURLQuery url with
    | none => Except.error ()
    | some q =>
      let prms := urlencodedParse q
      let code := searchGet prms codeKey
      let state := searchGet prms stateKey
      if jsTruthy code && isHomeAssistantFlow state then
        Except.ok ⟨some (haRedirectURL (code.getD []) (state.getD [])), none, none⟩
      else
        let cap := captureURL extId [(codeKey, code.getD [])]
        if jsTruthy code then
          Except.ok ⟨some cap, some badgeCheckText, some badgeGreenColor⟩
        else
          Except.ok ⟨some cap, none, none⟩
  else Except.ok ⟨none, none, none⟩

example : parseURLQuery ("msauth.com.mazdausa.mazdaiphone://auth?code=a&state=b".data) =
    some ("code=a&state=b".data) := by decide
example : parseURLQuery ("msauth.com.mazdausa.mazdaiphone://auth x?code=a".data) = none := by
  decide
example :
    onBeforeNavigate ("abc".data)
        ("msauth.com.mazdausa.mazdaiphone://auth?code=ABC123&state=x.eyJmbG93X2lkIjoiYSJ9.y".data) =
      Except.ok
        ⟨some ("https://my.home-assistant.io/redirect/oauth?code=ABC123&state=x.eyJmbG93X2lkIjoiYSJ9.y".data),
          none, none⟩ := rfl
example :
    onBeforeNavigate ("abc".data)
        ("msauth.com.mazdausa.mazdaiphone://auth?error=access_denied&error_description=User%20cancelled".data) =
      Except.ok
        ⟨some ("chrome-extension://abc/capture.html?code=&state=&error=access_denied&error_description=User+cancelled".data),
          none, none⟩ := rfl
example :
    onErrorOccurred ("abc".data)
        ("msauth.com.mazdausa.mazdaiphone://auth?code=AB&state=xyz".data) =
      Except.ok
        ⟨some ("chrome-extension://abc/capture.html?code=AB".data),
          some badgeCheckText, some badgeGreenColor⟩ := rfl

theorem jsSplit_ne_nil (sep : Char) (s : List Char) : jsSplit sep s ≠ [] := by
  induction s with
  | nil => simp [jsSplit]
  | cons c cs ih =>
    simp only [jsSplit]
    cases h : jsSplit sep cs with
    | nil => simp
    | cons p ps =>
      by_cases hc : c = sep
      · simp [hc]
      · simp [hc]

theorem jsSplit_no_sep (sep : Char) (a : List Char) (h : sep ∉ a) : jsSplit sep a = [a] := by
  induction a with
  | nil => rfl
  | cons c cs ih =>
    have hc : c ≠ sep := fun hcc => h (by rw [hcc]; exact List.mem_cons_self sep cs)
    have hcs : sep ∉ cs := fun hm => h (List.mem_cons_of_mem c hm)
    simp only [jsSplit, ih hcs]
    simp [hc]

theorem jsSplit_append (sep : Char) (a rest : List Char) (h : sep ∉ a) :
    jsSplit sep (a ++ (sep :: rest)) = a :: jsSplit sep rest := by
  induction a with
  | nil =>
    simp only [List.nil_append, jsSplit]
    cases hr : jsSplit sep rest with
    | nil => exact absurd hr (jsSplit_ne_nil sep rest)
    | cons p ps => simp
  | cons c cs ih =>
    have hc : c ≠ sep := fun hcc => h (by rw [hcc]; exact List.mem_cons_self sep cs)
    have hcs : sep ∉ cs := fun hm => h (List.mem_cons_of_mem c hm)
    simp only [List.cons_append, jsSplit, List.append_eq]
    rw [ih hcs]
    simp [hc]

theorem joinSep_cons_cons (sep c : Char) (p : List Char) (ps : List (List Char)) :
    joinSep sep ((c :: p) :: ps) = c :: joinSep sep (p :: ps) := by
  cases ps with
  | nil => rfl
  | cons q qs => rfl

theorem joinSep_jsSplit (sep : Char) (s : List Char) : joinSep sep (jsSplit sep s) = s := by
  induction s with
  | nil => rfl
  | cons c cs ih =>
    simp only [jsSplit]
    cases h : jsSplit sep cs with
    | nil => exact absurd h (jsSplit_ne_nil sep cs)
    | cons p ps =>
      rw [h] at ih
      by_cases hc : c = sep
      · subst hc
        simp [joinSep, ih]
      · simp only [if_neg hc, joinSep_cons_cons, ih]

theorem mem_jsSplit (sep : Char) (s p : List Char) (hp : p ∈ jsSplit sep s) : sep ∉ p := by
  induction s generalizing p with
  | nil =>
    simp only [jsSplit, List.mem_singleton] at hp
    subst hp
    simp
  | cons c cs ih =>
    cases h : jsSplit sep cs with
    | nil => exact absurd h (jsSplit_ne_nil sep cs)
    | cons q qs =>
      simp only [jsSplit, h] at hp
      by_cases hc : c = sep
      · rw [if_pos hc] at hp
        rcases List.mem_cons.mp hp with h1 | h2
        · subst h1; simp
        · exact ih p (by rw [h]; exact h2)
      · rw [if_neg hc] at hp
        rcases List.mem_cons.mp hp with h1 | h2
        · subst h1
          intro hm
          rcases List.mem_cons.mp hm with h3 | h4
          · exact hc h3.symm
          · exact ih q (by rw [h]; exact List.mem_cons_self q qs) h4
        · exact ih p (by rw [h]; exact List.mem_cons_of_mem q h2)

theorem jsSplit_eq_three_iff (sep : Char) (s a b c : List Char) :
    jsSplit sep s = [a, b, c] ↔
      (s = a ++ (sep :: (b ++ (sep :: c))) ∧ sep ∉ a ∧ sep ∉ b ∧ sep ∉ c) := by
  constructor
  · intro h
    have hj := joinSep_jsSplit sep s
    rw [h] at hj
    refine ⟨hj.symm, ?_, ?_, ?_⟩
    · exact mem_jsSplit sep s a (by rw [h]; simp)
    · exact mem_jsSplit sep s b (by rw [h]; simp)
    · exact mem_jsSplit sep s c (by rw [h]; simp)
  · rintro ⟨rfl, ha, hb, hc⟩
    rw [jsSplit_append sep a _ ha, jsSplit_append sep b _ hb, jsSplit_no_sep sep c hc]

/-- The classification core applied to the middle segment: atob it, JSON-parse
it, and test truthiness together with a string flow_id field. -/
def atobJsonCheck (b : List Char) : Bool :=
  match atob b with
  | none => false
  | some bin =>
    match jsonParse bin with
    | none => false
    | some v => jsTruthyJson v && jsonFieldIsString v flowIdKey

theorem isHAFlow_of_split (s a b c : List Char) (h : jsSplit '.' s = [a, b, c]) :
    isHomeAssistantFlow (some s) = atobJsonCheck b := by
  have hs : s.isEmpty = false := by
    cases s with
    | nil => simp [jsSplit] at h
    | cons x xs => rfl
  simp only [isHomeAssistantFlow, hs, Bool.false_eq_true, if_false, h]
  simp [atobJsonCheck]

theorem isHAFlow_not_three (s : List Char) (h : (jsSplit '.' s).length ≠ 3) :
    isHomeAssistantFlow (some s) = false := by
  cases hse : s.isEmpty with
  | true =>
    cases s with
    | nil => rfl
    | cons x xs => simp [List.isEmpty] at hse
  | false =>
    simp [isHomeAssistantFlow, hse, h]

/-- C1 (amended): the classifier accepts exactly the states of shape A.B.C
(three period-separated segments) whose middle segment decodes under the
forgiving standard-base64 alphabet of atob (not base64url) to JSON that is a
truthy value carrying a string flow_id field; every other state, including the
absent state, is rejected, and the embedding is a total function, so no
exception escapes. -/
theorem isHomeAssistantFlow_characterization (s : List Char) :
    (isHomeAssistantFlow (some s) = true ↔
      ∃ a b c, s = a ++ ('.' :: (b ++ ('.' :: c))) ∧ '.' ∉ a ∧ '.' ∉ b ∧ '.' ∉ c ∧
        ∃ bin v, atob b = some bin ∧ jsonParse bin = some v ∧
          jsTruthyJson v = true ∧ jsonFieldIsString v flowIdKey = true) ∧
    isHomeAssistantFlow none = false := by
  constructor
  · constructor
    · intro h
      have h3 : (jsSplit '.' s).length = 3 := by
        by_contra hne
        rw [isHAFlow_not_three s hne] at h
        exact absurd h (by simp)
      obtain ⟨a, b, c, hsp⟩ := List.length_eq_three.mp h3
      rw [isHAFlow_of_split s a b c hsp] at h
      obtain ⟨hseq, ha, hb, hc⟩ := (jsSplit_eq_three_iff '.' s a b c).mp hsp
      refine ⟨a, b, c, hseq, ha, hb, hc, ?_⟩
      unfold atobJsonCheck at h
      cases hab : atob b with
      | none => simp [hab] at h
      | some bin =>
        simp only [hab] at h
        cases hj : jsonParse bin with
        | none => simp [hj] at h
        | some v =>
          simp only [hj, Bool.and_eq_true] at h
          exact ⟨bin, v, rfl, hj, h.1, h.2⟩
    · rintro ⟨a, b, c, rfl, ha, hb, hc, bin, v, hab, hj, ht, hf⟩
      have hsp : jsSplit '.' (a ++ ('.' :: (b ++ ('.' :: c)))) = [a, b, c] :=
        (jsSplit_eq_three_iff '.' _ a b c).mpr ⟨rfl, ha, hb, hc⟩
      rw [isHAFlow_of_split _ a b c hsp]
      unfold atobJsonCheck
      simp [hab, hj, ht, hf]
  · rfl

/-- C1 counterexample to the claim as stated: the state
h.eyJmbG93X2lkIjoiYWI_In0.s has three segments and its middle segment
base64url-decodes to JSON whose flow_id field is the string ab?, yet the code
classifies it negatively, because atob rejects the underscore of the base64url
alphabet. -/
theorem base64url_state_not_classified :
    specIsHAFlowB64url (some ("h.eyJmbG93X2lkIjoiYWI_In0.s".data)) = true ∧
      isHomeAssistantFlow (some ("h.eyJmbG93X2lkIjoiYWI_In0.s".data)) = false := by
  constructor
  · decide
  · decide

/-- C9: the classification result depends only on the middle segment of a
three-segment state; header and signature segments are never examined. -/
theorem classification_depends_only_on_payload (a b c a2 c2 : List Char)
    (ha : '.' ∉ a) (hb : '.' ∉ b) (hc : '.' ∉ c) (ha2 : '.' ∉ a2) (hc2 : '.' ∉ c2) :
    isHomeAssistantFlow (some (a ++ ('.' :: (b ++ ('.' :: c))))) =
      isHomeAssistantFlow (some (a2 ++ ('.' :: (b ++ ('.' :: c2))))) := by
  rw [isHAFlow_of_split _ a b c ((jsSplit_eq_three_iff '.' _ a b c).mpr ⟨rfl, ha, hb, hc⟩),
    isHAFlow_of_split _ a2 b c2 ((jsSplit_eq_three_iff '.' _ a2 b c2).mpr ⟨rfl, ha2, hb, hc2⟩)]

/-- Witness for C9 at concrete segments. -/
theorem classification_depends_only_on_payload_instance :
    isHomeAssistantFlow
        (some ("x".data ++ ('.' :: ("eyJmbG93X2lkIjoiYSJ9".data ++ ('.' :: "y".data))))) =
      isHomeAssistantFlow
        (some ("qq".data ++ ('.' :: ("eyJmbG93X2lkIjoiYSJ9".data ++ ('.' :: "z".data))))) :=
  classification_depends_only_on_payload "x".data "eyJmbG93X2lkIjoiYSJ9".data "y".data
    "qq".data "z".data (by decide) (by decide) (by decide) (by decide) (by decide)

theorem url_ne_nil_of_mazda (url : List Char)
    (hm : startsWithL mazdaAuthURLStart url = true) : url.isEmpty = false := by
  cases url with
  | nil => exact absurd hm (by decide)
  | cons x xs => rfl

/-- True when a handler invocation completed without throwing and instructed a
tab navigation. -/
def dispatchesNav : Except Unit Dispatch → Bool
  | Except.ok d => d.navURL.isSome
  | Except.error _ => false

theorem dispatchesNav_elim (r : Except Unit Dispatch) (h : dispatchesNav r = true) :
    ∃ d u, r = Except.ok d ∧ d.navURL = some u := by
  cases r with
  | error e => simp [dispatchesNav] at h
  | ok d =>
    cases hn : d.navURL with
    | none => simp [dispatchesNav, hn] at h
    | some u => exact ⟨d, u, rfl, hn⟩

theorem onBefore_parsed_nav (extId url q : List Char)
    (hm : startsWithL mazdaAuthURLStart url = true)
    (hp : parseURLQuery url = some q) :
    dispatchesNav (onBeforeNavigate extId url) = true := by
  cases h1 : (jsTruthy (searchGet (urlencodedParse q) codeKey) &&
      isHomeAssistantFlow (searchGet (urlencodedParse q) stateKey)) with
  | true => simp [onBeforeNavigate, hm, hp, h1, dispatchesNav]
  | false =>
    cases h2 : jsTruthy (searchGet (urlencodedParse q) codeKey) with
    | true =>
      have hha : isHomeAssistantFlow (searchGet (urlencodedParse q) stateKey) = false := by
        rw [h2] at h1
        simpa using h1
      simp [onBeforeNavigate, hm, hp, h1, h2, hha, dispatchesNav]
    | false => simp [onBeforeNavigate, hm, hp, h1, h2, dispatchesNav]

theorem onError_parsed_nav (extId url q : List Char)
    (hm : startsWithL mazdaAuthURLStart url = true)
    (hp : parseURLQuery url = some q) :
    dispatchesNav (onErrorOccurred extId url) = true := by
  have hne := url_ne_nil_of_mazda url hm
  cases h1 : (jsTruthy (searchGet (urlencodedParse q) codeKey) &&
      isHomeAssistantFlow (searchGet (urlencodedParse q) stateKey)) with
  | true => simp [onErrorOccurred, hne, hm, hp, h1, dispatchesNav]
  | false =>
    cases h2 : jsTruthy (searchGet (urlencodedParse q) codeKey) with
    | true =>
      have hha : isHomeAssistantFlow (searchGet (urlencodedParse q) stateKey) = false := by
        rw [h2] at h1
        simpa using h1
      simp [onErrorOccurred, hne, hm, hp, h1, h2, hha, dispatchesNav]
    | false => simp [onErrorOccurred, hne, hm, hp, h1, h2, dispatchesNav]

/-- C2 (amended): a navigation or navigation-error event is ignored, with no
navigation and no badge write, exactly when its URL does not start with the
single recognized prefix msauth.com.mazdausa.mazdaiphone://auth; the Android
prefix named by the spec takes part in no comparison. -/
theorem dispatch_iff_mazda_redirect (extId url : List Char) :
    (onBeforeNavigate extId url = Except.ok ⟨none, none, none⟩ ∧
      onErrorOccurred extId url = Except.ok ⟨none, none, none⟩) ↔
      startsWithL mazdaAuthURLStart url = false := by
  cases hm : startsWithL mazdaAuthURLStart url with
  | false =>
    have h1 : onBeforeNavigate extId url = Except.ok ⟨none, none, none⟩ := by
      simp [onBeforeNavigate, hm]
    have h2 : onErrorOccurred extId url = Except.ok ⟨none, none, none⟩ := by
      simp [onErrorOccurred, hm]
    simp [h1, h2]
  | true =>
    constructor
    · rintro ⟨h1, _⟩
      exfalso
      cases hp : parseURLQuery url with
      | none => simp [onBeforeNavigate, hm, hp] at h1
      | some q =>
        have hnav := onBefore_parsed_nav extId url q hm hp
        rw [h1] at hnav
        simp [dispatchesNav] at hnav
    · intro hf
      exact absurd hf (by simp)

/-- C2 counterexample to the claim as stated: a URL starting with the Android
prefix msauth://com.interrait.mymazda is ignored by both entry points of the
code, although the claim says it is recognized and handled. -/
theorem android_scheme_url_ignored :
    startsWithL androidSchemeStart ("msauth://com.interrait.mymazda?code=ABC123".data) = true ∧
      onBeforeNavigate ("abc".data) ("msauth://com.interrait.mymazda?code=ABC123".data) =
        Except.ok ⟨none, none, none⟩ ∧
      onErrorOccurred ("abc".data) ("msauth://com.interrait.mymazda?code=ABC123".data) =
        Except.ok ⟨none, none, none⟩ :=
  ⟨by decide, rfl, rfl⟩

theorem formSafeByte_lt (b : Nat) (h : formSafeByte b = true) : b < 128 := by
  by_contra hge
  have hb : formSafeByte b = false := by
    unfold formSafeByte
    repeat rw [if_neg (by omega)]
  rw [hb] at h
  exact absurd h (by simp)

theorem formEncode_safe (cs : List Char)
    (h : cs.all (fun ch => formSafeByte ch.toNat) = true) : formEncode cs = cs := by
  induction cs with
  | nil => rfl
  | cons c cs ih =>
    simp only [List.all_cons, Bool.and_eq_true] at h
    have hb : formSafeByte c.toNat = true := h.1
    have hlt : c.toNat < 128 := formSafeByte_lt c.toNat hb
    have hne32 : ¬c.toNat = 32 := by
      intro h32
      rw [h32] at hb
      exact absurd hb (by decide)
    have hone : flatMapL formEncodeByte (utf8Encode c.toNat) = [c] := by
      rw [show utf8Encode c.toNat = [c.toNat] from by simp [utf8Encode, hlt]]
      simp [flatMapL, formEncodeByte, hne32, hb, Char.ofNat_toNat]
    calc formEncode (c :: cs)
        = flatMapL formEncodeByte (utf8Encode c.toNat) ++ formEncode cs := rfl
      _ = [c] ++ cs := by rw [hone, ih h.2]
      _ = c :: cs := rfl

/-- C3 (amended): on both entry points, a recognized parsable URL with a
truthy code and a positively classified state navigates the tab to the Home
Assistant endpoint whose query is the form-urlencoded serialization of the
captured code and state, with no badge write; when code and state consist of
serializer-safe characters the URL is exactly the claimed literal
https base ?code= code &state= state.  (The claim's unconditional
"exactly ... &state=<original state>" fails for states with characters the
serializer percent-encodes.) -/
theorem ha_redirect_url_form (extId url q code state : List Char)
    (hm : startsWithL mazdaAuthURLStart url = true)
    (hp : parseURLQuery url = some q)
    (hcode : searchGet (urlencodedParse q) codeKey = some code)
    (hne : code ≠ [])
    (hstate : searchGet (urlencodedParse q) stateKey = some state)
    (hha : isHomeAssistantFlow (some state) = true) :
    onBeforeNavigate extId url = Except.ok ⟨some (haRedirectURL code state), none, none⟩ ∧
      onErrorOccurred extId url = Except.ok ⟨some (haRedirectURL code state), none, none⟩ ∧
      (code.all (fun ch => formSafeByte ch.toNat) = true →
        state.all (fun ch => formSafeByte ch.toNat) = true →
        haRedirectURL code state =
          haBase ++ ('?' :: ("code=".data ++ (code ++ ("&state=".data ++ state))))) := by
  have htr : jsTruthy (some code) = true := by
    cases code with
    | nil => exact absurd rfl hne
    | cons x xs => rfl
  have hne2 := url_ne_nil_of_mazda url hm
  refine ⟨?_, ?_, ?_⟩
  · simp [onBeforeNavigate, hm, hp, hcode, hstate, htr, hha]
  · simp [onErrorOccurred, hne2, hm, hp, hcode, hstate, htr, hha]
  · intro hcs hss
    unfold haRedirectURL
    rw [show formSerialize [(codeKey, code), (stateKey, state)] =
        formEncode codeKey ++ ('=' :: formEncode code) ++
          ('&' :: (formEncode stateKey ++ ('=' :: formEncode state))) from rfl]
    rw [formEncode_safe code hcs, formEncode_safe state hss]
    rfl

/-- C3 counterexample to the claim as stated: a Home-Assistant-classified
state containing a slash is percent-encoded in the outgoing URL, so the
navigated URL is not base ?code=ABC123&state=<original state>. -/
theorem ha_redirect_percent_encodes_state :
    onBeforeNavigate ("abc".data)
        ("msauth.com.mazdausa.mazdaiphone://auth?code=ABC123&state=/.eyJmbG93X2lkIjoiYSJ9.c".data) =
      Except.ok
        ⟨some ("https://my.home-assistant.io/redirect/oauth?code=ABC123&state=%2F.eyJmbG93X2lkIjoiYSJ9.c".data),
          none, none⟩ ∧
      ("https://my.home-assistant.io/redirect/oauth?code=ABC123&state=%2F.eyJmbG93X2lkIjoiYSJ9.c".data : List Char) ≠
        ("https://my.home-assistant.io/redirect/oauth?code=ABC123&state=/.eyJmbG93X2lkIjoiYSJ9.c".data : List Char) :=
  ⟨rfl, by decide⟩

/-- Witness for C3 at a concrete recognized URL. -/
theorem ha_redirect_url_form_instance :
    onBeforeNavigate ("abc".data)
        ("msauth.com.mazdausa.mazdaiphone://auth?code=ABC123&state=x.eyJmbG93X2lkIjoiYSJ9.y".data) =
        Except.ok
          ⟨some (haRedirectURL ("ABC123".data) ("x.eyJmbG93X2lkIjoiYSJ9.y".data)), none, none⟩ ∧
      onErrorOccurred ("abc".data)
          ("msauth.com.mazdausa.mazdaiphone://auth?code=ABC123&state=x.eyJmbG93X2lkIjoiYSJ9.y".data) =
        Except.ok
          ⟨some (haRedirectURL ("ABC123".data) ("x.eyJmbG93X2lkIjoiYSJ9.y".data)), none, none⟩ ∧
      (("ABC123".data).all (fun ch => formSafeByte ch.toNat) = true →
        ("x.eyJmbG93X2lkIjoiYSJ9.y".data).all (fun ch => formSafeByte ch.toNat) = true →
        haRedirectURL ("ABC123".data) ("x.eyJmbG93X2lkIjoiYSJ9.y".data) =
          haBase ++ ('?' :: ("code=".data ++ ("ABC123".data ++
            ("&state=".data ++ "x.eyJmbG93X2lkIjoiYSJ9.y".data))))) :=
  ha_redirect_url_form ("abc".data)
    ("msauth.com.mazdausa.mazdaiphone://auth?code=ABC123&state=x.eyJmbG93X2lkIjoiYSJ9.y".data)
    ("code=ABC123&state=x.eyJmbG93X2lkIjoiYSJ9.y".data) ("ABC123".data)
    ("x.eyJmbG93X2lkIjoiYSJ9.y".data) (by decide) (by decide) (by decide) (by decide)
    (by decide) (by decide)

/-- C4: on the navigation-attempt entry point, a recognized parsable URL whose
code is not truthy or whose state is not classified as a Home Assistant flow
navigates to the capture page carrying code, state, error and
error_description (each defaulting to the empty string), and the badge is set
to the checkmark on green exactly when a nonempty code was captured. -/
theorem attempt_capture_dispatch (extId url q : List Char)
    (hm : startsWithL mazdaAuthURLStart url = true)
    (hp : parseURLQuery url = some q)
    (hno : (jsTruthy (searchGet (urlencodedParse q) codeKey) &&
        isHomeAssistantFlow (searchGet (urlencodedParse q) stateKey)) = false) :
    onBeforeNavigate extId url =
      Except.ok
        ⟨some (captureURL extId
            [(codeKey, (searchGet (urlencodedParse q) codeKey).getD []),
              (stateKey, (searchGet (urlencodedParse q) stateKey).getD []),
              (errorKey, (searchGet (urlencodedParse q) errorKey).getD []),
              (errorDescKey, (searchGet (urlencodedParse q) errorDescKey).getD [])]),
          if jsTruthy (searchGet (urlencodedParse q) codeKey) then some badgeCheckText else none,
          if jsTruthy (searchGet (urlencodedParse q) codeKey) then some badgeGreenColor
          else none⟩ := by
  cases h2 : jsTruthy (searchGet (urlencodedParse q) codeKey) with
  | true =>
    have hha : isHomeAssistantFlow (searchGet (urlencodedParse q) stateKey) = false := by
      rw [h2] at hno
      simpa using hno
    simp [onBeforeNavigate, hm, hp, hno, h2, hha]
  | false => simp [onBeforeNavigate, hm, hp, hno, h2]

/-- Witness for C4: a recognized URL with no code and an upstream OAuth error
forwards error and error_description and leaves the badge unset. -/
theorem attempt_capture_dispatch_instance :
    onBeforeNavigate ("abc".data)
        ("msauth.com.mazdausa.mazdaiphone://auth?error=access_denied&error_description=User%20cancelled".data) =
      Except.ok
        ⟨some (captureURL ("abc".data)
            [(codeKey,
                (searchGet
                    (urlencodedParse
                      ("error=access_denied&error_description=User%20cancelled".data))
                    codeKey).getD []),
              (stateKey,
                (searchGet
                    (urlencodedParse
                      ("error=access_denied&error_description=User%20cancelled".data))
                    stateKey).getD []),
              (errorKey,
                (searchGet
                    (urlencodedParse
                      ("error=access_denied&error_description=User%20cancelled".data))
                    errorKey).getD []),
              (errorDescKey,
                (searchGet
                    (urlencodedParse
                      ("error=access_denied&error_description=User%20cancelled".data))
                    errorDescKey).getD [])]),
          if jsTruthy
              (searchGet
                (urlencodedParse ("error=access_denied&error_description=User%20cancelled".data))
                codeKey) then
            some badgeCheckText
          else none,
          if jsTruthy
              (searchGet
                (urlencodedParse ("error=access_denied&error_description=User%20cancelled".data))
                codeKey) then
            some badgeGreenColor
          else none⟩ :=
  attempt_capture_dispatch ("abc".data)
    ("msauth.com.mazdausa.mazdaiphone://auth?error=access_denied&error_description=User%20cancelled".data)
    ("error=access_denied&error_description=User%20cancelled".data) (by decide) (by decide)
    (by decide)

/-- C5 (amended): on the navigation-error entry point, a recognized parsable
URL that is not dispatched externally navigates to the capture page whose
query carries only the code parameter (defaulting to the empty string); the
captured state is not forwarded on this path.  The badge follows the code as
on the other path. -/
theorem error_capture_dispatch_form (extId url q : List Char)
    (hm : startsWithL mazdaAuthURLStart url = true)
    (hp : parseURLQuery url = some q)
    (hno : (jsTruthy (searchGet (urlencodedParse q) codeKey) &&
        isHomeAssistantFlow (searchGet (urlencodedParse q) stateKey)) = false) :
    onErrorOccurred extId url =
      Except.ok
        ⟨some (captureBase extId ++
            ('?' :: ("code=".data ++
              formEncode ((searchGet (urlencodedParse q) codeKey).getD [])))),
          if jsTruthy (searchGet (urlencodedParse q) codeKey) then some badgeCheckText else none,
          if jsTruthy (searchGet (urlencodedParse q) codeKey) then some badgeGreenColor
          else none⟩ := by
  have hne := url_ne_nil_of_mazda url hm
  cases h2 : jsTruthy (searchGet (urlencodedParse q) codeKey) with
  | true =>
    have hha : isHomeAssistantFlow (searchGet (urlencodedParse q) stateKey) = false := by
      rw [h2] at hno
      simpa using hno
    simp [onErrorOccurred, hne, hm, hp, hno, h2, hha, captureURL, captureBase]
    all_goals rfl
  | false =>
    simp [onErrorOccurred, hne, hm, hp, hno, h2, captureURL, captureBase]
    all_goals rfl

/-- C5 counterexample to the claim as stated: on the error path a recognized
URL carrying both code and state produces a capture URL containing only the
code parameter; reparsing the dispatched URL shows no state parameter, though
the input state xyz was present. -/
theorem error_path_drops_state :
    onErrorOccurred ("abc".data)
        ("msauth.com.mazdausa.mazdaiphone://auth?code=AB&state=xyz".data) =
      Except.ok
        ⟨some ("chrome-extension://abc/capture.html?code=AB".data),
          some badgeCheckText, some badgeGreenColor⟩ ∧
      searchGet (urlencodedParse ("code=AB&state=xyz".data)) stateKey = some ("xyz".data) ∧
      (parseURLQuery ("chrome-extension://abc/capture.html?code=AB".data)).map
          (fun q2 => searchGet (urlencodedParse q2) stateKey) = some none :=
  ⟨rfl, by decide, by decide⟩

/-- Witness for C5 at a concrete recognized URL on the error entry point. -/
theorem error_capture_dispatch_form_instance :
    onErrorOccurred ("abc".data)
        ("msauth.com.mazdausa.mazdaiphone://auth?code=QQ&state=zz".data) =
      Except.ok
        ⟨some (captureBase ("abc".data) ++
            ('?' :: ("code=".data ++
              formEncode ((searchGet (urlencodedParse ("code=QQ&state=zz".data)) codeKey).getD [])))),
          if jsTruthy (searchGet (urlencodedParse ("code=QQ&state=zz".data)) codeKey) then
            some badgeCheckText
          else none,
          if jsTruthy (searchGet (urlencodedParse ("code=QQ&state=zz".data)) codeKey) then
            some badgeGreenColor
          else none⟩ :=
  error_capture_dispatch_form ("abc".data)
    ("msauth.com.mazdausa.mazdaiphone://auth?code=QQ&state=zz".data)
    ("code=QQ&state=zz".data) (by decide) (by decide) (by decide)

/-- C6: on the navigation-error entry point, the capture page receives exactly
one query parameter, the code; state, error and error_description are not
forwarded, and the badge write happens exactly when the code is truthy. -/
theorem error_capture_only_code_key (extId url q : List Char)
    (hm : startsWithL mazdaAuthURLStart url = true)
    (hp : parseURLQuery url = some q)
    (hno : (jsTruthy (searchGet (urlencodedParse q) codeKey) &&
        isHomeAssistantFlow (searchGet (urlencodedParse q) stateKey)) = false) :
    ∃ d, onErrorOccurred extId url = Except.ok d ∧
      d.navURL =
        some (captureURL extId [(codeKey, (searchGet (urlencodedParse q) codeKey).getD [])]) ∧
      ((d.badgeText ≠ none ∨ d.badgeColor ≠ none) ↔
        jsTruthy (searchGet (urlencodedParse q) codeKey) = true) := by
  have hne := url_ne_nil_of_mazda url hm
  cases h2 : jsTruthy (searchGet (urlencodedParse q) codeKey) with
  | false =>
    refine ⟨⟨some (captureURL extId
        [(codeKey, (searchGet (urlencodedParse q) codeKey).getD [])]), none, none⟩, ?_, rfl, ?_⟩
    · simp [onErrorOccurred, hne, hm, hp, hno, h2]
    · simp [h2]
  | true =>
    have hha : isHomeAssistantFlow (searchGet (urlencodedParse q) stateKey) = false := by
      rw [h2] at hno
      simpa using hno
    refine ⟨⟨some (captureURL extId
        [(codeKey, (searchGet (urlencodedParse q) codeKey).getD [])]),
        some badgeCheckText, some badgeGreenColor⟩, ?_, rfl, ?_⟩
    · simp [onErrorOccurred, hne, hm, hp, hno, h2, hha]
    · simp [h2]

/-- Witness for C6 at a concrete recognized URL on the error entry point. -/
theorem error_capture_only_code_key_instance :
    ∃ d, onErrorOccurred ("abc".data)
          ("msauth.com.mazdausa.mazdaiphone://auth?code=K7&error=denied".data) = Except.ok d ∧
      d.navURL =
        some (captureURL ("abc".data)
          [(codeKey,
              (searchGet (urlencodedParse ("code=K7&error=denied".data)) codeKey).getD [])]) ∧
      ((d.badgeText ≠ none ∨ d.badgeColor ≠ none) ↔
        jsTruthy (searchGet (urlencodedParse ("code=K7&error=denied".data)) codeKey) = true) :=
  error_capture_only_code_key ("abc".data)
    ("msauth.com.mazdausa.mazdaiphone://auth?code=K7&error=denied".data)
    ("code=K7&error=denied".data) (by decide) (by decide) (by decide)

/-- C7 (amended): an event whose URL lacks the recognized prefix produces no
navigation and no badge write; a recognized event whose URL the URL parser
accepts produces exactly one tab navigation on each entry point.  (The claim's
unconditional "exactly one navigation per recognized event" fails when new URL
throws on a recognized but unparsable URL.) -/
theorem ignore_or_single_dispatch (extId url : List Char) :
    (startsWithL mazdaAuthURLStart url = false →
      onBeforeNavigate extId url = Except.ok ⟨none, none, none⟩ ∧
        onErrorOccurred extId url = Except.ok ⟨none, none, none⟩) ∧
    (startsWithL mazdaAuthURLStart url = true → ∀ q, parseURLQuery url = some q →
      (∃ d u, onBeforeNavigate extId url = Except.ok d ∧ d.navURL = some u) ∧
      (∃ d u, onErrorOccurred extId url = Except.ok d ∧ d.navURL = some u)) := by
  constructor
  · intro hm
    exact ⟨by simp [onBeforeNavigate, hm], by simp [onErrorOccurred, hm]⟩
  · intro hm q hp
    exact ⟨dispatchesNav_elim _ (onBefore_parsed_nav extId url q hm hp),
      dispatchesNav_elim _ (onError_parsed_nav extId url q hm hp)⟩

/-- C7 counterexample to the claim as stated: a URL with the recognized prefix
whose host contains a vertical bar makes new URL throw, so the recognized
event issues no navigation instruction at all. -/
theorem unparsable_recognized_no_dispatch :
    startsWithL mazdaAuthURLStart
        ("msauth.com.mazdausa.mazdaiphone://auth|x?code=y".data) = true ∧
      onBeforeNavigate ("abc".data)
          ("msauth.com.mazdausa.mazdaiphone://auth|x?code=y".data) = Except.error () ∧
      onErrorOccurred ("abc".data)
          ("msauth.com.mazdausa.mazdaiphone://auth|x?code=y".data) = Except.error () :=
  ⟨by decide, rfl, rfl⟩

/-- Witness for C7: an unrelated https URL is ignored, and the bare recognized
prefix is dispatched on both entry points. -/
theorem ignore_or_single_dispatch_instance :
    (onBeforeNavigate ("abc".data) ("https://example.com/".data) =
        Except.ok ⟨none, none, none⟩ ∧
      onErrorOccurred ("abc".data) ("https://example.com/".data) =
        Except.ok ⟨none, none, none⟩) ∧
    ((∃ d u, onBeforeNavigate ("abc".data) mazdaAuthURLStart = Except.ok d ∧
        d.navURL = some u) ∧
      (∃ d u, onErrorOccurred ("abc".data) mazdaAuthURLStart = Except.ok d ∧
        d.navURL = some u)) :=
  ⟨(ignore_or_single_dispatch ("abc".data) ("https://example.com/".data)).1 (by decide),
    (ignore_or_single_dispatch ("abc".data) mazdaAuthURLStart).2 (by decide) [] (by decide)⟩

/-- C8 (amended): for a URL with the recognized prefix, when the URL parser
accepts it the handlers never throw and the dispatch occurs (missing
parameters degrade to empty defaults); when the parser rejects it, new URL
throws inside the handler, the exception escapes, and no dispatch occurs.
(The claim's unconditional "never raises and still dispatches" fails on
parser-rejected URLs.) -/
theorem parse_failure_boundary (extId url : List Char)
    (hm : startsWithL mazdaAuthURLStart url = true) :
    (∀ q, parseURLQuery url = some q →
      (∃ d u, onBeforeNavigate extId url = Except.ok d ∧ d.navURL = some u) ∧
      (∃ d u, onErrorOccurred extId url = Except.ok d ∧ d.navURL = some u)) ∧
    (parseURLQuery url = none →
      onBeforeNavigate extId url = Except.error () ∧
        onErrorOccurred extId url = Except.error ()) := by
  have hne := url_ne_nil_of_mazda url hm
  constructor
  · intro q hp
    exact ⟨dispatchesNav_elim _ (onBefore_parsed_nav extId url q hm hp),
      dispatchesNav_elim _ (onError_parsed_nav extId url q hm hp)⟩
  · intro hp
    exact ⟨by simp [onBeforeNavigate, hm, hp], by simp [onErrorOccurred, hne, hm, hp]⟩

/-- C8 counterexample to the claim as stated: a recognized URL with a space in
its host is rejected by the URL parser, new URL throws, and the handler aborts
with no capture-page dispatch. -/
theorem malformed_url_throws :
    startsWithL mazdaAuthURLStart
        ("msauth.com.mazdausa.mazdaiphone://auth x?code=y".data) = true ∧
      parseURLQuery ("msauth.com.mazdausa.mazdaiphone://auth x?code=y".data) = none ∧
      onBeforeNavigate ("abc".data)
          ("msauth.com.mazdausa.mazdaiphone://auth x?code=y".data) = Except.error () :=
  ⟨by decide, by decide, rfl⟩

/-- Witness for C8: a parsable recognized URL dispatches, and a caret in the
host makes the parse fail and both handlers throw. -/
theorem parse_failure_boundary_instance :
    ((∃ d u, onBeforeNavigate ("abc".data)
          ("msauth.com.mazdausa.mazdaiphone://auth?code=zz".data) = Except.ok d ∧
        d.navURL = some u) ∧
      (∃ d u, onErrorOccurred ("abc".data)
          ("msauth.com.mazdausa.mazdaiphone://auth?code=zz".data) = Except.ok d ∧
        d.navURL = some u)) ∧
    (onBeforeNavigate ("abc".data) ("msauth.com.mazdausa.mazdaiphone://auth^".data) =
        Except.error () ∧
      onErrorOccurred ("abc".data) ("msauth.com.mazdausa.mazdaiphone://auth^".data) =
        Except.error ()) :=
  ⟨(parse_failure_boundary ("abc".data)
      ("msauth.com.mazdausa.mazdaiphone://auth?code=zz".data) (by decide)).1
      ("code=zz".data) (by decide),
    (parse_failure_boundary ("abc".data) ("msauth.com.mazdausa.mazdaiphone://auth^".data)
      (by decide)).2 (by decide)⟩

theorem captureURL_ne_haRedirectURL (extId : List Char)
    (prms : List (List Char × List Char)) (c s : List Char) :
    captureURL extId prms ≠ haRedirectURL c s := by
  intro h
  have h1 : (captureURL extId prms).head? = some 'c' := rfl
  have h2 : (haRedirectURL c s).head? = some 'h' := rfl
  rw [h, h2] at h1
  exact absurd h1 (by decide)

/-- C10: on both entry points, every completed invocation either leaves the
badge untouched or writes exactly the checkmark on green, and the latter
happens only on the capture-page path with a truthy captured code; an
invocation that navigates to the Home Assistant endpoint never writes the
badge. -/
theorem badge_only_on_capture_with_code (extId url : List Char) (d : Dispatch)
    (h : onBeforeNavigate extId url = Except.ok d ∨ onErrorOccurred extId url = Except.ok d) :
    (d.badgeText = none ∧ d.badgeColor = none) ∨
      ((d.badgeText = some badgeCheckText ∧ d.badgeColor = some badgeGreenColor) ∧
        (∃ q prms, parseURLQuery url = some q ∧
          jsTruthy (searchGet (urlencodedParse q) codeKey) = true ∧
          (jsTruthy (searchGet (urlencodedParse q) codeKey) &&
              isHomeAssistantFlow (searchGet (urlencodedParse q) stateKey)) = false ∧
          d.navURL = some (captureURL extId prms)) ∧
        (∀ c s, d.navURL = some (haRedirectURL c s) → False)) := by
  rcases h with h | h
  · cases hm : startsWithL mazdaAuthURLStart url with
    | false =>
      simp [onBeforeNavigate, hm] at h
      rw [← h]
      exact Or.inl ⟨rfl, rfl⟩
    | true =>
      cases hp : parseURLQuery url with
      | none => simp [onBeforeNavigate, hm, hp] at h
      | some q =>
        cases h1 : (jsTruthy (searchGet (urlencodedParse q) codeKey) &&
            isHomeAssistantFlow (searchGet (urlencodedParse q) stateKey)) with
        | true =>
          simp [onBeforeNavigate, hm, hp, h1] at h
          rw [← h]
          exact Or.inl ⟨rfl, rfl⟩
        | false =>
          cases h2 : jsTruthy (searchGet (urlencodedParse q) codeKey) with
          | true =>
            have hha : isHomeAssistantFlow (searchGet (urlencodedParse q) stateKey) = false := by
              rw [h2] at h1
              simpa using h1
            simp [onBeforeNavigate, hm, hp, h1, h2, hha] at h
            rw [← h]
            refine Or.inr ⟨⟨rfl, rfl⟩, ⟨q, _, rfl, h2, h1, rfl⟩, ?_⟩
            intro c s hcs
            exact captureURL_ne_haRedirectURL extId _ c s (Option.some.inj hcs)
          | false =>
            simp [onBeforeNavigate, hm, hp, h1, h2] at h
            rw [← h]
            exact Or.inl ⟨rfl, rfl⟩
  · cases hm : startsWithL mazdaAuthURLStart url with
    | false =>
      simp [onErrorOccurred, hm] at h
      rw [← h]
      exact Or.inl ⟨rfl, rfl⟩
    | true =>
      have hne := url_ne_nil_of_mazda url hm
      cases hp : parseURLQuery url with
      | none => simp [onErrorOccurred, hne, hm, hp] at h
      | some q =>
        cases h1 : (jsTruthy (searchGet (urlencodedParse q) codeKey) &&
            isHomeAssistantFlow (searchGet (urlencodedParse q) stateKey)) with
        | true =>
          simp [onErrorOccurred, hne, hm, hp, h1] at h
          rw [← h]
          exact Or.inl ⟨rfl, rfl⟩
        | false =>
          cases h2 : jsTruthy (searchGet (urlencodedParse q) codeKey) with
          | true =>
            have hha : isHomeAssistantFlow (searchGet (urlencodedParse q) stateKey) = false := by
              rw [h2] at h1
              simpa using h1
            simp [onErrorOccurred, hne, hm, hp, h1, h2, hha] at h
            rw [← h]
            refine Or.inr ⟨⟨rfl, rfl⟩, ⟨q, _, rfl, h2, h1, rfl⟩, ?_⟩
            intro c s hcs
            exact captureURL_ne_haRedirectURL extId _ c s (Option.some.inj hcs)
          | false =>
            simp [onErrorOccurred, hne, hm, hp, h1, h2] at h
            rw [← h]
            exact Or.inl ⟨rfl, rfl⟩

/-- Witness for C10: a capture dispatch with a truthy code on the error entry
point writes the checkmark badge and is not a Home Assistant redirect. -/
theorem badge_only_on_capture_with_code_instance :
    ((⟨some ("chrome-extension://abc/capture.html?code=AB".data),
        some badgeCheckText, some badgeGreenColor⟩ : Dispatch).badgeText = none ∧
      (⟨some ("chrome-extension://abc/capture.html?code=AB".data),
        some badgeCheckText, some badgeGreenColor⟩ : Dispatch).badgeColor = none) ∨
    (((⟨some ("chrome-extension://abc/capture.html?code=AB".data),
          some badgeCheckText, some badgeGreenColor⟩ : Dispatch).badgeText =
            some badgeCheckText ∧
        (⟨some ("chrome-extension://abc/capture.html?code=AB".data),
          some badgeCheckText, some badgeGreenColor⟩ : Dispatch).badgeColor =
            some badgeGreenColor) ∧
      (∃ q prms, parseURLQuery ("msauth.com.mazdausa.mazdaiphone://auth?code=AB".data) =
            some q ∧
          jsTruthy (searchGet (urlencodedParse q) codeKey) = true ∧
          (jsTruthy (searchGet (urlencodedParse q) codeKey) &&
              isHomeAssistantFlow (searchGet (urlencodedParse q) stateKey)) = false ∧
          (⟨some ("chrome-extension://abc/capture.html?code=AB".data),
            some badgeCheckText, some badgeGreenColor⟩ : Dispatch).navURL =
              some (captureURL ("abc".data) prms)) ∧
      (∀ c s, (⟨some ("chrome-extension://abc/capture.html?code=AB".data),
          some badgeCheckText, some badgeGreenColor⟩ : Dispatch).navURL =
            some (haRedirectURL c s) → False)) :=
  badge_only_on_capture_with_code ("abc".data)
    ("msauth.com.mazdausa.mazdaiphone://auth?code=AB".data)
    ⟨some ("chrome-extension://abc/capture.html?code=AB".data),
      some badgeCheckText, some badgeGreenColor⟩ (Or.inr rfl)
